import Mathlib

/-!
Verification development for the nodeJs repository.

Part 1 models the Sequential Middleware Dispatcher described by the spec
(route table, prefix matching, handler chain, response lifecycle).  The
dispatcher itself lives inside the Express framework, not under the
repository sources, so those definitions are modelled from the spec.

Part 2 embeds, directly from the sources, the plain HTTP server of
nodejs_01/app.js and the admin router of expressjs/routes/admin.js.
-/

namespace NodeApp

/-- An HTTP request: method, path and an optional parsed body
(key-value pairs), as in spec section 3. -/
structure Request where
  method : String
  path : String
  body : Option (List (String × String))
deriving Repr, DecidableEq

/-- A finalized response outcome: status code and body. -/
structure Outcome where
  status : Nat
  body : String
deriving Repr, DecidableEq

/-- What a handler does when invoked with (Request, Response, Next):
it may write and finalize the response, finalize and then still call
Next (the usage error of spec 4.2a), call Next without writing, do
neither (a hung handler, spec 4.2c), or raise a HandlerError. -/
inductive HandlerAction where
  | finalize (o : Outcome)
  | finalizeThenNext (o : Outcome)
  | next
  | hang
  | raiseError (msg : String)
deriving Repr, DecidableEq

/-- A handler is a function of the request; its interaction with the
Response and the Next capability is described by the returned action. -/
abbrev Handler : Type := Request → HandlerAction

/-- A route entry pairs a path-prefix filter with a handler. -/
structure RouteEntry where
  pathPrefix : String
  handler : Handler

/-- The route table is the ordered list of registered entries. -/
abbrev RouteTable : Type := List RouteEntry

/-- Modelled from the spec: `register(pathPrefix, handler)` of the Route
Table component (spec 4.1), which is Express's `app.use` bookkeeping and
is not part of the repository sources.  It appends to the ordered list. -/
def register (t : RouteTable) (p : String) (h : Handler) : RouteTable :=
  t ++ [⟨p, h⟩]

/-- String prefix test used by path filtering, on the character lists of
the two strings. -/
def isPathPrefix (p s : String) : Bool :=
  List.isPrefixOf p.data s.data

/-- Modelled from the spec: `matches(request)` of the Route Table
component (spec 4.1) returns, in registration order, all entries whose
pathPrefix is a prefix of the request path. -/
def routeMatches (t : RouteTable) (req : Request) : List RouteEntry :=
  t.filter (fun e => isPathPrefix e.pathPrefix req.path)

/-- The matching entries together with their registration positions in
the full table, in registration order. -/
def matchesIdx (t : RouteTable) (req : Request) : List (Nat × Handler) :=
  (t.enum.filter (fun e => isPathPrefix e.2.pathPrefix req.path)).map
    (fun e => (e.1, e.2.handler))

/-- Errors of spec section 7 that the dispatcher records. -/
inductive DispatchError where
  | doubleResponse
  | handlerError (msg : String)
deriving Repr, DecidableEq

/-- Modelled from the spec: the default not-found outcome the dispatcher
emits when the chain is exhausted (spec 4.2); the repository's fallback
middleware sends status 404 with this body. -/
def notFound : Outcome := ⟨404, "<h1>page not found</h1>"⟩

/-- Modelled from the spec: the generic failure outcome used when a
handler raises and the response is not already sent (spec 7). -/
def genericFailure : Outcome := ⟨500, "internal error"⟩

/-- The observable result of dispatching one request: the final response
(none when a hung handler left the request hanging), the registration
positions of the handlers that were invoked, in invocation order, the
errors recorded, the number of unsent-to-sent transitions of the
Response, and the number of default not-found outcomes emitted. -/
structure DispatchResult where
  response : Option Outcome
  invoked : List Nat
  errors : List DispatchError
  writes : Nat
  defaults : Nat
deriving Repr, DecidableEq

/-- Modelled from the spec: the chain-execution loop of the Dispatcher
(spec 4.2), which is Express's middleware stepping and is not part of
the repository sources.  The state argument is the Response: `none` is
unsent, `some o` is sent with outcome `o`.  A handler that finalizes
ends the chain; Next after the response is sent fails with
DoubleResponseError and never writes again; a raising handler aborts the
chain, its error is recorded for the external reporter, and the response
is finalized with the generic failure outcome if not already sent; an
exhausted chain with an unsent response gets the default not-found
outcome. -/
def stepHandler (i : Nat) (a : HandlerAction) (st : Option Outcome)
    (r : DispatchResult) : DispatchResult :=
  match a, st with
  | .finalize o, none => ⟨some o, [i], [], 1, 0⟩
  | .finalize _, some o0 => ⟨some o0, [i], [.doubleResponse], 0, 0⟩
  | .finalizeThenNext o, none => ⟨some o, [i], [.doubleResponse], 1, 0⟩
  | .finalizeThenNext _, some o0 => ⟨some o0, [i], [.doubleResponse], 0, 0⟩
  | .next, none => ⟨r.response, i :: r.invoked, r.errors, r.writes, r.defaults⟩
  | .next, some o0 => ⟨some o0, [i], [.doubleResponse], 0, 0⟩
  | .hang, st0 => ⟨st0, [i], [], 0, 0⟩
  | .raiseError msg, none => ⟨some genericFailure, [i], [.handlerError msg], 1, 0⟩
  | .raiseError msg, some o0 => ⟨some o0, [i], [.handlerError msg], 0, 0⟩

/-- Modelled from the spec: the recursion of the chain-execution loop
over the matching entries, in order, on the current response state. -/
def runChain (req : Request) : Option Outcome → List (Nat × Handler) → DispatchResult
  | none, [] => ⟨some notFound, [], [], 1, 1⟩
  | some o0, [] => ⟨some o0, [], [], 0, 0⟩
  | st, (i, h) :: rest => stepHandler i (h req) st (runChain req none rest)

/-- Modelled from the spec: `dispatch(request)` of the Dispatcher
component (spec 4.2): run the chain of matching entries, in registration
order, on a fresh unsent response. -/
def dispatch (t : RouteTable) (req : Request) : DispatchResult :=
  runChain req none (matchesIdx t req)

/-- The dispatcher's process-wide state: just the route table, created
at startup (spec 5). -/
structure ServerState where
  table : RouteTable

/-- Modelled from the spec: serving one request reads the route table
and produces a dispatch result; the table is read-only after startup. -/
def handleRequest (s : ServerState) (req : Request) : ServerState × DispatchResult :=
  (s, dispatch s.table req)

/-- Modelled from the spec: serving a sequence of requests threads the
server state through `handleRequest`, collecting the results. -/
def serve (s : ServerState) : List Request → ServerState × List DispatchResult
  | [] => (s, [])
  | req :: reqs =>
    let p := handleRequest s req
    let q := serve p.1 reqs
    (q.1, p.2 :: q.2)

/-- The observable state of the node `res` object in nodejs_01/app.js:
headers set so far, chunks written so far, and how many times `res.end`
was called. -/
structure NodeResponse where
  headers : List (String × String)
  chunks : List String
  ended : Nat
deriving Repr, DecidableEq

/-- A fresh node response, before the request listener runs. -/
def NodeResponse.empty : NodeResponse := ⟨[], [], 0⟩

/-- Embedding of `res.setHeader(k, v)`. -/
def NodeResponse.setHeader (res : NodeResponse) (k v : String) : NodeResponse :=
  { res with headers := res.headers ++ [(k, v)] }

/-- Embedding of `res.write(s)`. -/
def NodeResponse.write (res : NodeResponse) (s : String) : NodeResponse :=
  { res with chunks := res.chunks ++ [s] }

/-- Embedding of `res.end()`. -/
def NodeResponse.finish (res : NodeResponse) : NodeResponse :=
  { res with ended := res.ended + 1 }

/-- Embedding of the request listener of src/nodejs_01/app.js: set the
content-type header, then write the message form page when the url is
"/" and return, otherwise write the hello page; both branches end the
response once. -/
def requestListener (url : String) : NodeResponse :=
  let res := NodeResponse.empty
  let res := res.setHeader "content-type" "text/html"
  if url = "/" then
    let res := res.write "<html>"
    let res := res.write "<head><title>Enter Message</title></head>"
    let res := res.write "<body><form action=\"/message\" method=\"POST\"><input type=\"text\" name=\"message\"><button type=\"submit\">send</button></form></body>"
    let res := res.write "</html>"
    res.finish
  else
    let res := res.write "<html>"
    let res := res.write "<head><title>my first page</title></head>"
    let res := res.write "<body><h1>hellow from nodejs</h1></body>"
    let res := res.write "</html>"
    res.finish

/-- A product stored in the admin router's module-level `products`
array: src/expressjs/routes/admin.js keeps only a title. -/
structure Product where
  title : String
deriving Repr, DecidableEq

/-- What the admin router answers: a file send (`res.sendFile`) or a
redirect (`res.redirect`). -/
inductive AdminResult where
  | file (p : String)
  | redirect (p : String)
deriving Repr, DecidableEq

/-- Embedding of src/expressjs/routes/admin.js: `router.get` on
/add-product sends the add-product.html view; `router.post` on
/add-product pushes `{title: req.body.title}` onto the shared `products`
array and redirects to "/"; any other request is not handled by this
router.  The function returns the updated products array and the
router's answer. -/
def adminHandle (products : List Product) (method path bodyTitle : String) :
    List Product × Option AdminResult :=
  if method = "GET" && path = "/add-product" then
    (products, some (.file "views/add-product.html"))
  else if method = "POST" && path = "/add-product" then
    (products ++ [⟨bodyTitle⟩], some (.redirect "/"))
  else
    (products, none)

/-- The outcome of the second middleware of src/expressjs/app.js, which
sends the add-product page. -/
def addProductOutcome : Outcome := ⟨200, "<h1>add product</h1>"⟩

/-- The outcome of the third middleware of src/expressjs/app.js. -/
def helloOutcome : Outcome := ⟨200, "<h1>hello from expressjs</h1>"⟩

/-- The first middleware of src/expressjs/app.js: logs and calls next. -/
def demoA : Handler := fun _ => .next

/-- The second middleware of src/expressjs/app.js: sends the
add-product page and does not call next. -/
def demoB : Handler := fun _ => .finalize addProductOutcome

/-- The route table registered by src/expressjs/app.js lines 5-12: "/"
with a pass-through handler, then "/add-product" with a sending one. -/
def demoTable : RouteTable := [⟨"/", demoA⟩, ⟨"/add-product", demoB⟩]

/-- A request for the /add-product path. -/
def demoReq : Request := ⟨"GET", "/add-product", none⟩

/-- A middleware that sends a response and then still calls next, the
usage error described by the comment on src/expressjs/app.js line 7. -/
def demoSendThenNext : Handler := fun _ => .finalizeThenNext helloOutcome

/-- A middleware that raises during execution. -/
def demoRaise : Handler := fun _ => .raiseError "boom"

/-! ### Helper lemmas about the chain execution -/

/-- The invoked list is always an initial segment of the chain's
registration positions: nothing is skipped and nothing is reordered. -/
theorem runChain_invoked_take (req : Request) :
    ∀ (st : Option Outcome) (chain : List (Nat × Handler)),
      (runChain req st chain).invoked =
        (chain.map Prod.fst).take ((runChain req st chain).invoked.length)
  | st, [] => by cases st <;> simp [runChain]
  | st, (i, h) :: rest => by
    cases st <;> cases hr : h req <;>
      simp [runChain, stepHandler, hr, ← runChain_invoked_take req none rest]

/-- The response transitions from unsent to sent at most once in any
chain execution. -/
theorem runChain_writes_le (req : Request) :
    ∀ (st : Option Outcome) (chain : List (Nat × Handler)),
      (runChain req st chain).writes ≤ 1
  | st, [] => by cases st <;> simp [runChain]
  | st, (i, h) :: rest => by
    cases st <;> cases hr : h req <;>
      simp [runChain, stepHandler, hr] <;> exact runChain_writes_le req none rest

/-- Running a chain whose first block only ever calls Next first invokes
that whole block and then behaves as the remaining chain. -/
theorem runChain_append_next (req : Request)
    (c2 : List (Nat × Handler)) :
    ∀ (c1 : List (Nat × Handler)), (∀ e ∈ c1, e.2 req = HandlerAction.next) →
      runChain req none (c1 ++ c2) =
        ⟨(runChain req none c2).response,
         c1.map Prod.fst ++ (runChain req none c2).invoked,
         (runChain req none c2).errors,
         (runChain req none c2).writes,
         (runChain req none c2).defaults⟩
  | [], _ => rfl
  | (i, h) :: c1, hnext => by
    have h0 : h req = HandlerAction.next := hnext (i, h) (by simp)
    have ih := runChain_append_next req c2 c1 (fun e he => hnext e (by simp [he]))
    simp [runChain, stepHandler, h0, ih]

/-- If some handler of the chain finalizes the response without calling
Next, at most the handlers up to and including it are invoked. -/
theorem runChain_length_le (req : Request) (o : Outcome) :
    ∀ (chain : List (Nat × Handler)) (st : Option Outcome) (k i : Nat) (h : Handler),
      chain[k]? = some (i, h) → h req = HandlerAction.finalize o →
      (runChain req st chain).invoked.length ≤ k + 1
  | [], _, k, i, h => by simp
  | (i0, h0) :: rest, st, 0, i, h => fun hk ha => by
    simp at hk
    obtain ⟨hi, hh⟩ := hk
    subst hh
    cases st <;> simp [runChain, stepHandler, ha]
  | (i0, h0) :: rest, st, k + 1, i, h => fun hk ha => by
    simp at hk
    have ih := runChain_length_le req o rest none k i h hk ha
    cases st <;> cases hr : h0 req <;> simp [runChain, stepHandler, hr] <;> omega

/-- The registration positions of the matching entries form a sublist of
0, 1, ..., table length - 1. -/
theorem matchesIdx_sublist_range (t : RouteTable) (req : Request) :
    List.Sublist ((matchesIdx t req).map Prod.fst) (List.range t.length) := by
  have h1 : (matchesIdx t req).map Prod.fst
      = (t.enum.filter (fun e => isPathPrefix e.2.pathPrefix req.path)).map Prod.fst := by
    simp [matchesIdx, List.map_map]
  rw [h1, ← List.enum_map_fst t]
  exact (List.filter_sublist _).map Prod.fst

/-- The registration positions of the matching entries are strictly
increasing. -/
theorem matchesIdx_pairwise (t : RouteTable) (req : Request) :
    ((matchesIdx t req).map Prod.fst).Pairwise (· < ·) :=
  List.Pairwise.sublist (matchesIdx_sublist_range t req) (List.pairwise_lt_range _)

/-- In a strictly increasing list of naturals, every element of an
initial segment preceding position j is smaller than the element at j. -/
theorem pairwise_take_lt {L : List Nat} (hp : L.Pairwise (· < ·)) {n j x y : Nat}
    (hx : x ∈ L.take n) (hj : L[j]? = some y) (hn : n ≤ j) : x < y := by
  obtain ⟨a, ha, hax⟩ := List.getElem_of_mem hx
  have han : a < n := lt_of_lt_of_le ha (by simp [List.length_take])
  have haL : a < L.length := by
    have := ha
    simp [List.length_take] at this
    omega
  obtain ⟨hjL, hjy⟩ := List.getElem?_eq_some.mp hj
  have hlt := List.pairwise_iff_getElem.mp hp a j haL hjL (lt_of_lt_of_le han hn)
  rw [List.getElem_take] at hax
  rw [← hax, ← hjy] at *
  exact hlt

/-! ### The claims -/

/-- C1: for every route table and every request, dispatch invokes the
handlers of the matching route entries strictly in the order in which
they were registered, with no matching handler skipped before the chain
terminates: the invoked registration positions are an initial segment of
the matching entries' positions, and strictly increasing. -/
theorem dispatch_in_registration_order (t : RouteTable) (req : Request) :
    (dispatch t req).invoked =
      ((matchesIdx t req).map Prod.fst).take ((dispatch t req).invoked.length)
    ∧ (dispatch t req).invoked.Pairwise (· < ·) := by
  have h1 := runChain_invoked_take req none (matchesIdx t req)
  refine ⟨h1, ?_⟩
  rw [show (dispatch t req).invoked = _ from h1]
  exact List.Pairwise.sublist (List.take_sublist _ _) (matchesIdx_pairwise t req)

/-- C2: for every chain in which the k-th matching handler finalizes the
response without invoking Next, no handler after position k in that
chain is ever invoked: at most k+1 handlers run, and the handler of
every later matching entry is not among the invoked ones. -/
theorem dispatch_finalize_stops_chain (t : RouteTable) (req : Request)
    (k i : Nat) (h : Handler) (o : Outcome)
    (hk : (matchesIdx t req)[k]? = some (i, h))
    (hact : h req = HandlerAction.finalize o) :
    (dispatch t req).invoked.length ≤ k + 1
    ∧ ∀ j e, k + 1 ≤ j → (matchesIdx t req)[j]? = some e →
        e.1 ∉ (dispatch t req).invoked := by
  have hlen := runChain_length_le req o (matchesIdx t req) none k i h hk hact
  refine ⟨hlen, ?_⟩
  intro j e hj hje hmem
  have h1 : (dispatch t req).invoked =
      ((matchesIdx t req).map Prod.fst).take ((dispatch t req).invoked.length) :=
    runChain_invoked_take req none (matchesIdx t req)
  rw [h1] at hmem
  have hfst : ((matchesIdx t req).map Prod.fst)[j]? = some e.1 := by
    rw [List.getElem?_map, hje]
    rfl
  exact absurd (pairwise_take_lt (matchesIdx_pairwise t req) hmem hfst
    (le_trans hlen hj)) (lt_irrefl _)

/-- C2 witness: in the table of src/expressjs/app.js lines 5-12, the
matching handler at position 1 finalizes, and the dispatcher invokes no
later entry. -/
theorem dispatch_finalize_stops_chain_witness :
    (matchesIdx demoTable demoReq)[1]? = some (1, demoB)
    ∧ demoB demoReq = HandlerAction.finalize addProductOutcome
    ∧ ((dispatch demoTable demoReq).invoked.length ≤ 1 + 1
       ∧ ∀ j e, 1 + 1 ≤ j → (matchesIdx demoTable demoReq)[j]? = some e →
            e.1 ∉ (dispatch demoTable demoReq).invoked) :=
  ⟨rfl, rfl, dispatch_finalize_stops_chain demoTable demoReq 1 1 demoB
    addProductOutcome rfl rfl⟩

/-- C3: invoking Next after the response has already transitioned to
sent always raises DoubleResponseError and never results in a second
write (the response keeps the first outcome and exactly one write
happened); in general the response transitions from unsent to sent at
most once. -/
theorem next_after_sent_double_response (t : RouteTable) (req : Request)
    (k i : Nat) (h : Handler) (o : Outcome)
    (hk : (matchesIdx t req)[k]? = some (i, h))
    (hreach : ∀ e ∈ (matchesIdx t req).take k, e.2 req = HandlerAction.next)
    (hact : h req = HandlerAction.finalizeThenNext o) :
    (dispatch t req).errors = [DispatchError.doubleResponse]
    ∧ (dispatch t req).writes = 1
    ∧ (dispatch t req).response = some o
    ∧ ∀ (t2 : RouteTable) (req2 : Request), (dispatch t2 req2).writes ≤ 1 := by
  obtain ⟨hkl, hkv⟩ := List.getElem?_eq_some.mp hk
  have hsplit : matchesIdx t req =
      (matchesIdx t req).take k ++ ((i, h) :: (matchesIdx t req).drop (k + 1)) := by
    conv_lhs => rw [← List.take_append_drop k (matchesIdx t req)]
    rw [List.drop_eq_getElem_cons hkl, hkv]
  have happ := runChain_append_next req ((i, h) :: (matchesIdx t req).drop (k + 1))
    ((matchesIdx t req).take k) hreach
  have hstep : runChain req none ((i, h) :: (matchesIdx t req).drop (k + 1)) =
      ⟨some o, [i], [DispatchError.doubleResponse], 1, 0⟩ := by
    simp [runChain, stepHandler, hact]
  have hres : dispatch t req =
      ⟨some o, ((matchesIdx t req).take k).map Prod.fst ++ [i],
       [DispatchError.doubleResponse], 1, 0⟩ := by
    have e1 : dispatch t req =
        runChain req none
          ((matchesIdx t req).take k ++ ((i, h) :: (matchesIdx t req).drop (k + 1))) :=
      congrArg (runChain req none) hsplit
    rw [e1, happ, hstep]
  rw [hres]
  exact ⟨rfl, rfl, rfl, fun t2 req2 => runChain_writes_le req2 none _⟩

/-- C3 witness: a single middleware that sends and then calls next, as
in the usage error described on src/expressjs/app.js line 7. -/
theorem next_after_sent_double_response_witness :
    (matchesIdx [⟨"/", demoSendThenNext⟩] demoReq)[0]? = some (0, demoSendThenNext)
    ∧ demoSendThenNext demoReq = HandlerAction.finalizeThenNext helloOutcome
    ∧ ((dispatch [⟨"/", demoSendThenNext⟩] demoReq).errors =
        [DispatchError.doubleResponse]
       ∧ (dispatch [⟨"/", demoSendThenNext⟩] demoReq).writes = 1
       ∧ (dispatch [⟨"/", demoSendThenNext⟩] demoReq).response = some helloOutcome
       ∧ ∀ (t2 : RouteTable) (req2 : Request), (dispatch t2 req2).writes ≤ 1) :=
  ⟨rfl, rfl, next_after_sent_double_response [⟨"/", demoSendThenNext⟩] demoReq
    0 0 demoSendThenNext helloOutcome rfl (by simp) rfl⟩

/-- C4: for every request whose chain is exhausted without any handler
finalizing the response, including the empty route table, the dispatcher
itself finalizes the response with exactly one default not-found
outcome. -/
theorem dispatch_default_not_found (t : RouteTable) (req : Request)
    (hall : ∀ e ∈ matchesIdx t req, e.2 req = HandlerAction.next) :
    dispatch t req =
      ⟨some notFound, (matchesIdx t req).map Prod.fst, [], 1, 1⟩ := by
  have happ := runChain_append_next req [] (matchesIdx t req) hall
  rw [dispatch, ← List.append_nil (matchesIdx t req), happ]
  simp [runChain]

/-- C4 witness: the empty route table yields the default not-found
outcome, written exactly once. -/
theorem dispatch_default_not_found_witness :
    (∀ e ∈ matchesIdx ([] : RouteTable) demoReq, e.2 demoReq = HandlerAction.next)
    ∧ dispatch ([] : RouteTable) demoReq = ⟨some notFound, [], [], 1, 1⟩ :=
  ⟨by simp [matchesIdx], (dispatch_default_not_found ([] : RouteTable) demoReq
    (by simp [matchesIdx])).trans rfl⟩

/-- C5: `matches(request)` returns, in registration order, exactly those
entries whose pathPrefix is a string prefix of the request path; for the
table [("/", A), ("/add-product", B)] of src/expressjs/app.js and the
path "/add-product", both entries match, and dispatch runs A then B,
with B's outcome ending the chain. -/
theorem matches_in_order_by_path (t : RouteTable) (req : Request) :
    List.Sublist (routeMatches t req) t
    ∧ (∀ e, e ∈ routeMatches t req ↔
        e ∈ t ∧ isPathPrefix e.pathPrefix req.path = true)
    ∧ routeMatches demoTable demoReq = [⟨"/", demoA⟩, ⟨"/add-product", demoB⟩]
    ∧ dispatch demoTable demoReq = ⟨some addProductOutcome, [0, 1], [], 1, 0⟩ := by
  refine ⟨List.filter_sublist _, fun e => ?_, rfl, by decide⟩
  simp [routeMatches, List.mem_filter]

/-- C6: register always appends the new entry at the end of the ordered
route list, preserving the previously registered entries and their
order; no uniqueness constraint on pathPrefix is enforced, so two
entries with the same prefix coexist, each at its own position. -/
theorem register_appends_at_end (t : RouteTable) (p : String) (h : Handler) :
    register t p h = t ++ [⟨p, h⟩]
    ∧ (register t p h).take t.length = t
    ∧ (register t p h).length = t.length + 1
    ∧ (register t p h)[t.length]? = some ⟨p, h⟩
    ∧ ∀ h2 : Handler,
        (register (register t p h) p h2)[t.length]? = some ⟨p, h⟩
        ∧ (register (register t p h) p h2)[t.length + 1]? = some ⟨p, h2⟩ := by
  refine ⟨rfl, ?_, by simp [register], ?_, fun h2 => ⟨?_, ?_⟩⟩
  · simp [register, List.take_left]
  · simp [register]
  · rw [register, register, List.append_assoc,
      List.getElem?_append_right (Nat.le_refl _)]
    simp
  · rw [register, register, List.append_assoc,
      List.getElem?_append_right (Nat.le_add_right _ _)]
    simp

/-- C7: dispatching requests leaves the route table unchanged, no matter
how many requests are served and in what order: after serving any
request sequence the table is the startup table, and every request's
result is the dispatch against that same table, independent of the
other requests. -/
theorem serve_preserves_route_table (s : ServerState) (reqs : List Request) :
    (serve s reqs).1 = s
    ∧ (serve s reqs).2 = reqs.map (fun r => dispatch s.table r) := by
  induction reqs with
  | nil => exact ⟨rfl, rfl⟩
  | cons r rs ih =>
    refine ⟨?_, ?_⟩ <;> simp [serve, handleRequest, ih.1, ih.2]

/-- C8: a handler that raises aborts the current chain with no retry
(only the handlers up to and including it ran, each once), the error is
forwarded to the error-reporting collaborator exactly once, the
in-flight response is finalized with the generic failure outcome, and no
other request is affected (serving a request never changes the server
state another request reads). -/
theorem handler_error_aborts_chain (t : RouteTable) (req : Request)
    (k i : Nat) (h : Handler) (msg : String)
    (hk : (matchesIdx t req)[k]? = some (i, h))
    (hreach : ∀ e ∈ (matchesIdx t req).take k, e.2 req = HandlerAction.next)
    (hact : h req = HandlerAction.raiseError msg) :
    (dispatch t req).response = some genericFailure
    ∧ (dispatch t req).errors = [DispatchError.handlerError msg]
    ∧ (dispatch t req).invoked = ((matchesIdx t req).take (k + 1)).map Prod.fst
    ∧ ∀ (s : ServerState) (r : Request), (handleRequest s r).1 = s := by
  obtain ⟨hkl, hkv⟩ := List.getElem?_eq_some.mp hk
  have hsplit : matchesIdx t req =
      (matchesIdx t req).take k ++ ((i, h) :: (matchesIdx t req).drop (k + 1)) := by
    conv_lhs => rw [← List.take_append_drop k (matchesIdx t req)]
    rw [List.drop_eq_getElem_cons hkl, hkv]
  have happ := runChain_append_next req ((i, h) :: (matchesIdx t req).drop (k + 1))
    ((matchesIdx t req).take k) hreach
  have hstep : runChain req none ((i, h) :: (matchesIdx t req).drop (k + 1)) =
      ⟨some genericFailure, [i], [DispatchError.handlerError msg], 1, 0⟩ := by
    simp [runChain, stepHandler, hact]
  have hres : dispatch t req =
      ⟨some genericFailure, ((matchesIdx t req).take k).map Prod.fst ++ [i],
       [DispatchError.handlerError msg], 1, 0⟩ := by
    have e1 : dispatch t req =
        runChain req none
          ((matchesIdx t req).take k ++ ((i, h) :: (matchesIdx t req).drop (k + 1))) :=
      congrArg (runChain req none) hsplit
    rw [e1, happ, hstep]
  have htke : ((matchesIdx t req).take (k + 1)).map Prod.fst =
      ((matchesIdx t req).take k).map Prod.fst ++ [i] := by
    rw [List.take_succ, hk]
    simp
  rw [hres, htke]
  exact ⟨rfl, rfl, rfl, fun s r => rfl⟩

/-- C8 witness: a single middleware that raises; the chain aborts after
it, the error is forwarded once, and the response gets the generic
failure outcome. -/
theorem handler_error_aborts_chain_witness :
    (matchesIdx [⟨"/", demoRaise⟩] demoReq)[0]? = some (0, demoRaise)
    ∧ demoRaise demoReq = HandlerAction.raiseError "boom"
    ∧ ((dispatch [⟨"/", demoRaise⟩] demoReq).response = some genericFailure
       ∧ (dispatch [⟨"/", demoRaise⟩] demoReq).errors =
          [DispatchError.handlerError "boom"]
       ∧ (dispatch [⟨"/", demoRaise⟩] demoReq).invoked =
          ((matchesIdx [⟨"/", demoRaise⟩] demoReq).take (0 + 1)).map Prod.fst
       ∧ ∀ (s : ServerState) (r : Request), (handleRequest s r).1 = s) :=
  ⟨rfl, rfl, handler_error_aborts_chain [⟨"/", demoRaise⟩] demoReq 0 0 demoRaise
    "boom" rfl (by simp) rfl⟩

/-- C9: the plain HTTP server of src/nodejs_01/app.js sends exactly one
response for every request: res.end is called exactly once in both
branches, the content-type header is set to text/html, the url "/"
gets the message-form page, and every other url gets the "hellow from
nodejs" page. -/
theorem nodeServer_single_response (url : String) :
    (requestListener url).ended = 1
    ∧ ("content-type", "text/html") ∈ (requestListener url).headers
    ∧ (url = "/" → (requestListener url).chunks =
        ["<html>", "<head><title>Enter Message</title></head>",
         "<body><form action=\"/message\" method=\"POST\"><input type=\"text\" name=\"message\"><button type=\"submit\">send</button></form></body>",
         "</html>"])
    ∧ (url ≠ "/" → (requestListener url).chunks =
        ["<html>", "<head><title>my first page</title></head>",
         "<body><h1>hellow from nodejs</h1></body>", "</html>"]) := by
  by_cases hu : url = "/" <;>
    simp [requestListener, hu, NodeResponse.empty, NodeResponse.setHeader,
      NodeResponse.write, NodeResponse.finish]

/-- C9 witness: the whole statement instantiated at the root url. -/
theorem nodeServer_single_response_witness :
    (requestListener "/").ended = 1
    ∧ ("content-type", "text/html") ∈ (requestListener "/").headers
    ∧ ("/" = "/" → (requestListener "/").chunks =
        ["<html>", "<head><title>Enter Message</title></head>",
         "<body><form action=\"/message\" method=\"POST\"><input type=\"text\" name=\"message\"><button type=\"submit\">send</button></form></body>",
         "</html>"])
    ∧ ("/" ≠ "/" → (requestListener "/").chunks =
        ["<html>", "<head><title>my first page</title></head>",
         "<body><h1>hellow from nodejs</h1></body>", "</html>"]) :=
  nodeServer_single_response "/"

/-- C10: in the admin router of src/expressjs/routes/admin.js, every
POST to /add-product appends exactly one element with the posted title
to the products array and redirects to "/", a GET to /add-product sends
the form view and leaves the products array unchanged, and no request
ever removes or reorders the existing elements: the old array is always
an initial segment of the new one. -/
theorem admin_add_product (ps : List Product) (m p title : String) :
    adminHandle ps "POST" "/add-product" title =
      (ps ++ [⟨title⟩], some (AdminResult.redirect "/"))
    ∧ adminHandle ps "GET" "/add-product" title =
      (ps, some (AdminResult.file "views/add-product.html"))
    ∧ (adminHandle ps m p title).1.take ps.length = ps
    ∧ ps.length ≤ (adminHandle ps m p title).1.length := by
  refine ⟨by simp [adminHandle], by simp [adminHandle], ?_, ?_⟩ <;>
    · unfold adminHandle
      split
      · simp
      · split <;> simp [List.take_left]

end NodeApp
